import Mathlib

/-!
Shallow embedding of the data-reconciliation and pricing-strategy logic of
`dashboard.py` (trivago-dashboard).  Monetary values are modelled as
rationals, dataframe rows as structures, and the pandas column operations as
functions over lists of rows.  Display-only code (charts, CSS, Streamlit
widgets) is not modelled; only the computations the claims are about.
-/

namespace Dashboard

/-- Constant `STRATEGY_PERCENT_THRESHOLD = 10.0` from the constants section
of `dashboard.py`. -/
def STRATEGY_PERCENT_THRESHOLD : ℚ := 10

/-- The strategy mode selected in the sidebar (`strateji_mod` in
`build_sidebar`): one of the strings "MAX", "MIN", "MEAN". -/
inductive StratejiMod
  | MAX
  | MIN
  | MEAN
  deriving DecidableEq

/-- The four scraped markets (TR, US, DE, UK databases). -/
inductive Market
  | TR
  | US
  | DE
  | UK
  deriving DecidableEq

/-- The fixed order in which `calculate_strategy_dataframe` lists the four
market prices: `[fiyat_tl, fiyat_usd_tl, fiyat_eur_tl, fiyat_gbp_tl]`. -/
def markets : List Market := [Market.TR, Market.US, Market.DE, Market.UK]

/-- One reconciled record after `merge_dataframes`: the four raw prices of a
(hotel, checkin) key, each already defaulted to 0 when missing. -/
structure Record where
  fiyat_tl : ℚ
  fiyat_usd : ℚ
  fiyat_eur : ℚ
  fiyat_gbp : ℚ
  deriving DecidableEq

/-- The exchange rates `kur_usd_tl`, `kur_eur_tl`, `kur_gbp_tl` returned by
`build_sidebar`. -/
structure Kurlar where
  kur_usd_tl : ℚ
  kur_eur_tl : ℚ
  kur_gbp_tl : ℚ
  deriving DecidableEq

/-- The normalized TL price of each market: columns `fiyat_tl`,
`fiyat_usd_tl = fiyat_usd * kur_usd_tl`, `fiyat_eur_tl`, `fiyat_gbp_tl` of
`calculate_strategy_dataframe`. -/
def normalized_price (r : Record) (k : Kurlar) : Market → ℚ
  | Market.TR => r.fiyat_tl
  | Market.US => r.fiyat_usd * k.kur_usd_tl
  | Market.DE => r.fiyat_eur * k.kur_eur_tl
  | Market.UK => r.fiyat_gbp * k.kur_gbp_tl

/-- Column `fiyatlar_listesi`:
`[p for p in [fiyat_tl, fiyat_usd_tl, fiyat_eur_tl, fiyat_gbp_tl] if p > 0]`. -/
def fiyatlar_listesi (r : Record) (k : Kurlar) : List ℚ :=
  (markets.map (normalized_price r k)).filter fun p => decide (0 < p)

/-- Column `max_fiyat_tl`: `max(x) if len(x) > 0 else 0`. -/
def max_fiyat_tl : List ℚ → ℚ
  | [] => 0
  | a :: as => as.foldl max a

/-- Column `min_fiyat_tl`: `min(x) if len(x) > 0 else 0`. -/
def min_fiyat_tl : List ℚ → ℚ
  | [] => 0
  | a :: as => as.foldl min a

/-- Column `mean_fiyat_tl`: `pd.Series(x).mean() if len(x) > 0 else 0`. -/
def mean_fiyat_tl : List ℚ → ℚ
  | [] => 0
  | a :: as => (a :: as).sum / ((a :: as).length : ℚ)

/-- Column `hedef_fiyat_tl`: the target price selected from
`max_fiyat_tl` / `min_fiyat_tl` / `mean_fiyat_tl` by the strategy mode. -/
def hedef_fiyat_tl (m : StratejiMod) (xs : List ℚ) : ℚ :=
  match m with
  | StratejiMod.MAX => max_fiyat_tl xs
  | StratejiMod.MIN => min_fiyat_tl xs
  | StratejiMod.MEAN => mean_fiyat_tl xs

/-- The target price of a record: `hedef_fiyat_tl` applied to its
`fiyatlar_listesi`. -/
def hedef_fiyat (m : StratejiMod) (r : Record) (k : Kurlar) : ℚ :=
  hedef_fiyat_tl m (fiyatlar_listesi r k)

/-- Columns `fark_tr` / `fark_us` / `fark_de` / `fark_uk`:
normalized price minus the target price. -/
def fark (m : StratejiMod) (r : Record) (k : Kurlar) (mk : Market) : ℚ :=
  normalized_price r k mk - hedef_fiyat m r k

/-- Inner function `calculate_percent_diff` of
`calculate_strategy_dataframe`: the guarded percentage. -/
def calculate_percent_diff (hedef f : ℚ) : ℚ :=
  if 0 < hedef then f / hedef * 100 else 0

/-- Columns `fark_tr_yuzde` / `fark_us_yuzde` / `fark_de_yuzde` /
`fark_uk_yuzde`. -/
def fark_yuzde (m : StratejiMod) (r : Record) (k : Kurlar) (mk : Market) : ℚ :=
  calculate_percent_diff (hedef_fiyat m r k) (fark m r k mk)

/-! ### Merge of the four market tables (`merge_dataframes`) -/

/-- One raw row of a market database after `_load_single_db`: hotel name,
raw checkin string, and price already coerced to a number with missing
values as 0.  The currency, scrape-time and note columns play no role in
the merge claims. -/
structure MarketRow where
  otel : String
  checkin : String
  fiyat : ℚ
  deriving DecidableEq

/-- The (hotel, checkin) join keys of one market table. -/
def keysOf (rows : List MarketRow) : List (String × String) :=
  rows.map fun r => (r.otel, r.checkin)

/-- Price of a key in one market after the outer join and `fillna(0)`:
the market's price when the key is present, else 0. -/
def lookup_fiyat (rows : List MarketRow) (key : String × String) : ℚ :=
  match rows.find? fun r => decide ((r.otel, r.checkin) = key) with
  | some r => r.fiyat
  | none => 0

/-- One merged row after `merge_dataframes`: `checkin` holds the result of
`pd.to_datetime(checkin, errors="coerce")`, so `none` models `NaT`. -/
structure MergedRow where
  otel : String
  checkin : Option Nat
  fiyat_tl : ℚ
  fiyat_usd : ℚ
  fiyat_eur : ℚ
  fiyat_gbp : ℚ
  deriving DecidableEq

/-- The key set of the outer join of the four tables (each key once). -/
def merged_keys (tr us de uk : List MarketRow) : List (String × String) :=
  (keysOf tr ++ keysOf us ++ keysOf de ++ keysOf uk).dedup

/-- `merge_dataframes`: three successive outer joins on `(otel, checkin)`,
then `pd.to_datetime(checkin, errors="coerce")` on the joined column and
`fillna(0)` on the four price columns.  `parse` abstracts pandas' date
parser.  Per-market keys are assumed unique (one scrape per hotel and
date), so the outer join is keyed by the union of the four key sets.  The
final `sort_values` only reorders rows and is not modelled; the claims
about the merge are order-independent. -/
def merge_dataframes (parse : String → Option Nat) (tr us de uk : List MarketRow) :
    List MergedRow :=
  (merged_keys tr us de uk).map fun key =>
    { otel := key.1
      checkin := parse key.2
      fiyat_tl := lookup_fiyat tr key
      fiyat_usd := lookup_fiyat us key
      fiyat_eur := lookup_fiyat de key
      fiyat_gbp := lookup_fiyat uk key }

/-! ### Recommendations tab (`display_recommendations_tab`) -/

/-- `compare_op`: the flagging predicate chosen by the strategy mode. -/
def compare_op (m : StratejiMod) (x : ℚ) : Bool :=
  match m with
  | StratejiMod.MAX => decide (x < -STRATEGY_PERCENT_THRESHOLD)
  | StratejiMod.MIN => decide (STRATEGY_PERCENT_THRESHOLD < x)
  | StratejiMod.MEAN => decide (STRATEGY_PERCENT_THRESHOLD < |x|)

/-- The markets flagged for one record: those whose `fark_yuzde` satisfies
`compare_op` (the non-`None` results of `create_recommendation` over the
four markets, in market order). -/
def oneriler (m : StratejiMod) (r : Record) (k : Kurlar) : List Market :=
  markets.filter fun mk => compare_op m (fark_yuzde m r k mk)

/-- `oneriler_listesi` before sorting: the records with at least one
flagged market, each paired with its flagged markets. -/
def oneriler_listesi (m : StratejiMod) (k : Kurlar) (rows : List Record) :
    List (Record × List Market) :=
  (rows.map fun r => (r, oneriler m r k)).filter fun p => !p.2.isEmpty

/-- `get_total_diff_score`: sum of `|fark_yuzde|` over the flagged markets
of the record (unflagged markets contribute 0). -/
def get_total_diff_score (m : StratejiMod) (k : Kurlar) (p : Record × List Market) : ℚ :=
  (markets.map fun mk =>
    if compare_op m (fark_yuzde m p.1 k mk) then |fark_yuzde m p.1 k mk| else 0).sum

/-- The order used by `oneriler_listesi.sort(key=get_total_diff_score,
reverse=True)`: descending total score. -/
def score_ge (m : StratejiMod) (k : Kurlar) (p q : Record × List Market) : Prop :=
  get_total_diff_score m k q ≤ get_total_diff_score m k p

instance (m : StratejiMod) (k : Kurlar) : DecidableRel (score_ge m k) :=
  fun p q =>
    inferInstanceAs (Decidable (get_total_diff_score m k q ≤ get_total_diff_score m k p))

/-- The sorted recommendation list.  Python's `list.sort` is stable and
`reverse=True` keeps ties in insertion order; insertion sort with
`score_ge` is that stable descending sort. -/
def sorted_oneriler (m : StratejiMod) (k : Kurlar) (rows : List Record) :
    List (Record × List Market) :=
  List.insertionSort (score_ge m k) (oneriler_listesi m k rows)

/-! ### Scrape-health classification (`display_health_tab`) -/

/-- The exact-match success list of `display_health_tab`. -/
def success_notes : List String :=
  ["our_lowest_label", "min_from_list", "fallback_top_main_block",
   "en_dusuk_fiyatimiz_etiketi", "min_from_main_block",
   "niedrigster_preis_etikett"]

/-- The exact-match failure list of `display_health_tab`. -/
def error_notes : List String :=
  ["CRASH_OR_NOT_FOUND", "CRASH_OR_TIMEOUT",
   "main_block_id_timeout", "main_block_id_not_found",
   "main_block_find_error", "not_found", "Bilinmiyor", "N/A"]

/-- Python's substring test `pat in s`, on the underlying character lists. -/
def containsSub (pat : List Char) : List Char → Bool
  | [] => pat.isEmpty
  | c :: rest => pat.isPrefixOf (c :: rest) || containsSub pat rest

/-- `categorize_note`: classification of one `source_note` into
"Başarılı" (Success), "Veri Çekilemedi" (Failure) or "Diğer" (Other),
together with the updated success list — the Python closure appends to the
enclosing `success_notes` list when the substring fallback fires. -/
def categorize_note (s : List String) (note : String) : String × List String :=
  if note ∈ s then ("Başarılı", s)
  else if note ∈ error_notes then ("Veri Çekilemedi", s)
  else if containsSub "min_from_main_block".toList note.toList then
    ("Başarılı", s ++ [note])
  else ("Diğer", s)

/-- Classifying a series of notes in order (`df.apply(categorize_note)`)
threads the mutated success list through the calls; `runNotes` returns the
success list reached after a run. -/
def runNotes (s : List String) : List String → List String
  | [] => s
  | n :: rest => runNotes (categorize_note s n).2 rest

/-- Invariant of the mutated success list: it contains the original
`success_notes`, and everything in it classifies as "Başarılı" against the
original list. -/
def NotesInv (s : List String) : Prop :=
  (∀ n ∈ success_notes, n ∈ s) ∧
  (∀ n ∈ s, (categorize_note success_notes n).1 = "Başarılı")

/-! ### Helper lemmas about the price list and the fold-based max/min -/

lemma mem_markets (mk : Market) : mk ∈ markets := by
  cases mk <;> decide

lemma mem_fiyatlar_listesi {r : Record} {k : Kurlar} {p : ℚ} :
    p ∈ fiyatlar_listesi r k ↔ (∃ mk, normalized_price r k mk = p) ∧ 0 < p := by
  unfold fiyatlar_listesi
  rw [List.mem_filter, List.mem_map]
  simp only [decide_eq_true_eq]
  constructor
  · rintro ⟨⟨mk, _, hmk⟩, hp⟩
    exact ⟨⟨mk, hmk⟩, hp⟩
  · rintro ⟨⟨mk, hmk⟩, hp⟩
    exact ⟨⟨mk, mem_markets mk, hmk⟩, hp⟩

lemma pos_of_mem_fiyatlar {r : Record} {k : Kurlar} {p : ℚ}
    (h : p ∈ fiyatlar_listesi r k) : 0 < p :=
  (mem_fiyatlar_listesi.1 h).2

lemma foldl_max_mem : ∀ (as : List ℚ) (a : ℚ), as.foldl max a = a ∨ as.foldl max a ∈ as
  | [], _ => Or.inl rfl
  | b :: bs, a => by
    rw [List.foldl_cons]
    rcases foldl_max_mem bs (max a b) with h | h
    · rcases max_choice a b with hm | hm
      · exact Or.inl (by rw [h, hm])
      · exact Or.inr (by rw [h, hm]; exact List.mem_cons_self b bs)
    · exact Or.inr (List.mem_cons_of_mem b h)

lemma le_foldl_max : ∀ (as : List ℚ) (a : ℚ), a ≤ as.foldl max a
  | [], a => le_refl a
  | b :: bs, a => by
    rw [List.foldl_cons]
    exact le_trans (le_max_left a b) (le_foldl_max bs (max a b))

lemma foldl_max_le_of_mem : ∀ (as : List ℚ) (a p : ℚ), p ∈ as → p ≤ as.foldl max a
  | [], _, p, h => absurd h (List.not_mem_nil p)
  | b :: bs, a, p, h => by
    rw [List.foldl_cons]
    rcases List.mem_cons.1 h with rfl | h
    · exact le_trans (le_max_right a p) (le_foldl_max bs (max a p))
    · exact foldl_max_le_of_mem bs (max a b) p h

lemma foldl_min_mem : ∀ (as : List ℚ) (a : ℚ), as.foldl min a = a ∨ as.foldl min a ∈ as
  | [], _ => Or.inl rfl
  | b :: bs, a => by
    rw [List.foldl_cons]
    rcases foldl_min_mem bs (min a b) with h | h
    · rcases min_choice a b with hm | hm
      · exact Or.inl (by rw [h, hm])
      · exact Or.inr (by rw [h, hm]; exact List.mem_cons_self b bs)
    · exact Or.inr (List.mem_cons_of_mem b h)

lemma foldl_min_le : ∀ (as : List ℚ) (a : ℚ), as.foldl min a ≤ a
  | [], a => le_refl a
  | b :: bs, a => by
    rw [List.foldl_cons]
    exact le_trans (foldl_min_le bs (min a b)) (min_le_left a b)

lemma foldl_min_le_of_mem : ∀ (as : List ℚ) (a p : ℚ), p ∈ as → as.foldl min a ≤ p
  | [], _, p, h => absurd h (List.not_mem_nil p)
  | b :: bs, a, p, h => by
    rw [List.foldl_cons]
    rcases List.mem_cons.1 h with rfl | h
    · exact le_trans (foldl_min_le bs (min a p)) (min_le_right a p)
    · exact foldl_min_le_of_mem bs (min a b) p h

lemma max_fiyat_tl_mem {xs : List ℚ} (h : xs ≠ []) : max_fiyat_tl xs ∈ xs := by
  match xs with
  | [] => exact absurd rfl h
  | a :: as =>
    show as.foldl max a ∈ a :: as
    rcases foldl_max_mem as a with h' | h'
    · rw [h']; exact List.mem_cons_self a as
    · exact List.mem_cons_of_mem a h'

lemma le_max_fiyat_tl {xs : List ℚ} {p : ℚ} (hp : p ∈ xs) : p ≤ max_fiyat_tl xs := by
  match xs with
  | [] => exact absurd hp (List.not_mem_nil p)
  | a :: as =>
    show p ≤ as.foldl max a
    rcases List.mem_cons.1 hp with rfl | h
    · exact le_foldl_max as p
    · exact foldl_max_le_of_mem as a p h

lemma min_fiyat_tl_mem {xs : List ℚ} (h : xs ≠ []) : min_fiyat_tl xs ∈ xs := by
  match xs with
  | [] => exact absurd rfl h
  | a :: as =>
    show as.foldl min a ∈ a :: as
    rcases foldl_min_mem as a with h' | h'
    · rw [h']; exact List.mem_cons_self a as
    · exact List.mem_cons_of_mem a h'

lemma min_fiyat_tl_le {xs : List ℚ} {p : ℚ} (hp : p ∈ xs) : min_fiyat_tl xs ≤ p := by
  match xs with
  | [] => exact absurd hp (List.not_mem_nil p)
  | a :: as =>
    show as.foldl min a ≤ p
    rcases List.mem_cons.1 hp with rfl | h
    · exact foldl_min_le as p
    · exact foldl_min_le_of_mem as a p h

lemma mean_fiyat_tl_pos {xs : List ℚ} (h : xs ≠ []) (hpos : ∀ p ∈ xs, 0 < p) :
    0 < mean_fiyat_tl xs := by
  match xs with
  | [] => exact absurd rfl h
  | a :: as =>
    show 0 < (a :: as).sum / ((a :: as).length : ℚ)
    apply div_pos
    · exact List.sum_pos (a :: as) hpos (List.cons_ne_nil a as)
    · exact_mod_cast Nat.succ_pos as.length

lemma hedef_fiyat_eq_zero_or_pos (m : StratejiMod) (r : Record) (k : Kurlar) :
    hedef_fiyat m r k = 0 ∨ 0 < hedef_fiyat m r k := by
  by_cases h : fiyatlar_listesi r k = []
  · left
    cases m <;>
      simp [hedef_fiyat, hedef_fiyat_tl, h, max_fiyat_tl, min_fiyat_tl, mean_fiyat_tl]
  · right
    cases m with
    | MAX => exact pos_of_mem_fiyatlar (max_fiyat_tl_mem h)
    | MIN => exact pos_of_mem_fiyatlar (min_fiyat_tl_mem h)
    | MEAN => exact mean_fiyat_tl_pos h fun p hp => pos_of_mem_fiyatlar hp

/-! ### Concrete inputs used by witnesses and counterexamples -/

/-- Unit exchange rates: every normalized price equals the raw price. -/
def k_one : Kurlar := ⟨1, 1, 1⟩

/-- A record with all four prices 0: its `fiyatlar_listesi` is empty. -/
def r_zero : Record := ⟨0, 0, 0, 0⟩

/-- A record with two positive prices (TR = 100, US = 2). -/
def r_ex : Record := ⟨100, 2, 0, 0⟩

/-- A record with prices 1 and 2: its mean 3/2 lies strictly between them. -/
def r_half : Record := ⟨1, 2, 0, 0⟩

/-- A record with a single positive price (TR = 100). -/
def r_one : Record := ⟨100, 0, 0, 0⟩

/-- A date parser model used by the concrete merge inputs: parses the one
ISO date the well-formed rows use and nothing else. -/
def parse0 : String → Option Nat :=
  fun s => if s = "2024-01-01" then some 20240101 else none

/-- A TR row whose checkin string does not parse as a date. -/
def bad_row : MarketRow := ⟨"Hotel A", "not-a-date", 5⟩

/-- A US row with a well-formed checkin. -/
def us_row : MarketRow := ⟨"Hotel B", "2024-01-01", 7⟩

/-- The merged row `merge_dataframes` produces from `bad_row` alone: the
row is kept, with `checkin = none` (NaT) and the other prices 0. -/
def bad_merged : MergedRow := ⟨"Hotel A", none, 5, 0, 0, 0⟩

/-- The join key of `us_row`. -/
def us_key : String × String := ("Hotel B", "2024-01-01")

/-- The merged row for `us_key` when only the US table contains it: the
three missing prices are filled with 0. -/
def us_merged : MergedRow := ⟨"Hotel B", some 20240101, 0, 7, 0, 0⟩

/-- Two records with equal total deviation score under the MIN strategy:
TR is flagged for the first, DE for the second, each at 9900 points. -/
def rec_a : Record := ⟨100, 1, 0, 0⟩

/-- See `rec_a`. -/
def rec_b : Record := ⟨0, 0, 100, 1⟩

/-! ### Claim C1 -/

/-- C1: for every record and strategy mode, the list of available prices is
exactly the normalized prices strictly greater than 0, and the target price
is the maximum of that list under MAX, the minimum under MIN, and the
arithmetic mean under MEAN; if the list is empty the target price is 0. -/
theorem c1_strategy_target (m : StratejiMod) (r : Record) (k : Kurlar) :
    (∀ p : ℚ, p ∈ fiyatlar_listesi r k ↔ (∃ mk, normalized_price r k mk = p) ∧ 0 < p) ∧
    (fiyatlar_listesi r k = [] → hedef_fiyat m r k = 0) ∧
    (fiyatlar_listesi r k ≠ [] →
      (hedef_fiyat StratejiMod.MAX r k ∈ fiyatlar_listesi r k ∧
        ∀ p ∈ fiyatlar_listesi r k, p ≤ hedef_fiyat StratejiMod.MAX r k) ∧
      (hedef_fiyat StratejiMod.MIN r k ∈ fiyatlar_listesi r k ∧
        ∀ p ∈ fiyatlar_listesi r k, hedef_fiyat StratejiMod.MIN r k ≤ p) ∧
      hedef_fiyat StratejiMod.MEAN r k =
        (fiyatlar_listesi r k).sum / ((fiyatlar_listesi r k).length : ℚ)) := by
  refine ⟨fun p => mem_fiyatlar_listesi, ?_, ?_⟩
  · intro h
    cases m <;>
      simp [hedef_fiyat, hedef_fiyat_tl, h, max_fiyat_tl, min_fiyat_tl, mean_fiyat_tl]
  · intro h
    refine ⟨⟨max_fiyat_tl_mem h, fun p hp => le_max_fiyat_tl hp⟩,
      ⟨min_fiyat_tl_mem h, fun p hp => min_fiyat_tl_le hp⟩, ?_⟩
    show hedef_fiyat_tl StratejiMod.MEAN (fiyatlar_listesi r k) =
      (fiyatlar_listesi r k).sum / ((fiyatlar_listesi r k).length : ℚ)
    match heq : fiyatlar_listesi r k with
    | [] => exact absurd heq h
    | a :: as => rfl

/-- Witness for C1 at concrete inputs: `r_zero` has an empty price list and
target 0; `r_ex` has a nonempty list whose MAX target is a member. -/
theorem c1_witness :
    hedef_fiyat StratejiMod.MAX r_zero k_one = 0 ∧
    hedef_fiyat StratejiMod.MAX r_ex k_one ∈ fiyatlar_listesi r_ex k_one :=
  ⟨(c1_strategy_target StratejiMod.MAX r_zero k_one).2.1
    (by norm_num [fiyatlar_listesi, markets, normalized_price, r_zero, k_one, List.filter]),
   ((c1_strategy_target StratejiMod.MAX r_ex k_one).2.2
    (by norm_num [fiyatlar_listesi, markets, normalized_price, r_ex, k_one, List.filter]
        simp)).1.1⟩

/-! ### Claim C2 (corrected) -/

/-- C2 counterexample: under the MEAN strategy for the record with prices
1 and 2 (unit rates), the target price is 3/2, which is neither an element
of `available_prices = [1, 2]` nor 0.  The claim "target_price ∈
available_prices ∪ \x7b0\x7d" is therefore false as stated. -/
theorem c2_counterexample :
    ¬ (hedef_fiyat StratejiMod.MEAN r_half k_one ∈ fiyatlar_listesi r_half k_one ∨
       hedef_fiyat StratejiMod.MEAN r_half k_one = 0) := by
  norm_num [hedef_fiyat, hedef_fiyat_tl, mean_fiyat_tl, fiyatlar_listesi, markets,
    normalized_price, r_half, k_one, List.filter]

/-- C2 amended: under MAX and MIN the target price is an element of
`available_prices` or 0 (under MEAN it is the arithmetic mean, which need
not be a member); and if `available_prices` is empty then every market's
`deviation_percent` is exactly 0. -/
theorem c2_target_membership (m : StratejiMod) (r : Record) (k : Kurlar) :
    ((m = StratejiMod.MAX ∨ m = StratejiMod.MIN) →
      hedef_fiyat m r k ∈ fiyatlar_listesi r k ∨ hedef_fiyat m r k = 0) ∧
    (fiyatlar_listesi r k = [] → ∀ mk : Market, fark_yuzde m r k mk = 0) := by
  constructor
  · intro hm
    by_cases h : fiyatlar_listesi r k = []
    · right
      rcases hm with rfl | rfl <;>
        simp [hedef_fiyat, hedef_fiyat_tl, h, max_fiyat_tl, min_fiyat_tl]
    · left
      rcases hm with rfl | rfl
      · exact max_fiyat_tl_mem h
      · exact min_fiyat_tl_mem h
  · intro h mk
    have h0 : hedef_fiyat m r k = 0 := by
      cases m <;>
        simp [hedef_fiyat, hedef_fiyat_tl, h, max_fiyat_tl, min_fiyat_tl, mean_fiyat_tl]
    unfold fark_yuzde calculate_percent_diff
    rw [h0]
    norm_num

/-- Witness for C2 at concrete inputs: for `r_ex` under MAX the target is a
member (or zero), and for `r_zero` (empty price list) the TR deviation
percentage is 0. -/
theorem c2_witness :
    (hedef_fiyat StratejiMod.MAX r_ex k_one ∈ fiyatlar_listesi r_ex k_one ∨
      hedef_fiyat StratejiMod.MAX r_ex k_one = 0) ∧
    fark_yuzde StratejiMod.MAX r_zero k_one Market.TR = 0 :=
  ⟨(c2_target_membership StratejiMod.MAX r_ex k_one).1 (Or.inl rfl),
   (c2_target_membership StratejiMod.MAX r_zero k_one).2
     (by norm_num [fiyatlar_listesi, markets, normalized_price, r_zero, k_one, List.filter])
     Market.TR⟩

/-! ### Claim C4 -/

/-- C4: for every record and market, `deviation_amount` is the normalized
price minus the target, `deviation_percent` is `amount / target * 100` when
the target is positive and exactly 0 when the target is 0, and the target is
always 0 or positive, so the guarded division never divides by zero. -/
theorem c4_deviation_safety (m : StratejiMod) (r : Record) (k : Kurlar) (mk : Market) :
    fark m r k mk = normalized_price r k mk - hedef_fiyat m r k ∧
    (0 < hedef_fiyat m r k →
      fark_yuzde m r k mk = fark m r k mk / hedef_fiyat m r k * 100) ∧
    (hedef_fiyat m r k = 0 → fark_yuzde m r k mk = 0) ∧
    (hedef_fiyat m r k = 0 ∨ 0 < hedef_fiyat m r k) := by
  refine ⟨rfl, ?_, ?_, hedef_fiyat_eq_zero_or_pos m r k⟩
  · intro h
    unfold fark_yuzde calculate_percent_diff
    rw [if_pos h]
  · intro h
    unfold fark_yuzde calculate_percent_diff
    rw [h]
    norm_num

/-- Witness for C4 at concrete inputs: `r_one` has a positive target so the
percentage is the quotient formula, and `r_zero` has target 0 so the
percentage is 0. -/
theorem c4_witness :
    fark_yuzde StratejiMod.MAX r_one k_one Market.US =
      fark StratejiMod.MAX r_one k_one Market.US /
        hedef_fiyat StratejiMod.MAX r_one k_one * 100 ∧
    fark_yuzde StratejiMod.MAX r_zero k_one Market.US = 0 :=
  ⟨(c4_deviation_safety StratejiMod.MAX r_one k_one Market.US).2.1
    (by norm_num [hedef_fiyat, hedef_fiyat_tl, max_fiyat_tl, fiyatlar_listesi, markets,
      normalized_price, r_one, k_one, List.filter, List.foldl]),
   (c4_deviation_safety StratejiMod.MAX r_zero k_one Market.US).2.2.1
    (by norm_num [hedef_fiyat, hedef_fiyat_tl, max_fiyat_tl, fiyatlar_listesi, markets,
      normalized_price, r_zero, k_one, List.filter])⟩

/-! ### Claim C8 -/

/-- C8: under the MAX strategy the target price is the maximum of the
available prices, at least one market's deviation amount is ≤ 0 (the market
achieving the maximum), and when no price is available every market with a
nonnegative price has deviation exactly 0. -/
theorem c8_max_strategy (r : Record) (k : Kurlar) :
    hedef_fiyat StratejiMod.MAX r k = max_fiyat_tl (fiyatlar_listesi r k) ∧
    (∃ mk : Market, fark StratejiMod.MAX r k mk ≤ 0) ∧
    (fiyatlar_listesi r k = [] → ∀ mk : Market, 0 ≤ normalized_price r k mk →
      fark StratejiMod.MAX r k mk = 0) := by
  refine ⟨rfl, ?_, ?_⟩
  · by_cases h : fiyatlar_listesi r k = []
    · refine ⟨Market.TR, ?_⟩
      have h0 : hedef_fiyat StratejiMod.MAX r k = 0 := by
        simp [hedef_fiyat, hedef_fiyat_tl, h, max_fiyat_tl]
      have hnp : ¬ (0 < normalized_price r k Market.TR) := fun hpos =>
        List.not_mem_nil _ (h ▸ mem_fiyatlar_listesi.2 ⟨⟨Market.TR, rfl⟩, hpos⟩)
      unfold fark
      rw [h0]
      linarith [not_lt.1 hnp]
    · obtain ⟨⟨mk, hmk⟩, -⟩ := mem_fiyatlar_listesi.1 (max_fiyat_tl_mem h)
      refine ⟨mk, ?_⟩
      unfold fark
      rw [hmk]
      simp [hedef_fiyat, hedef_fiyat_tl]
  · intro h mk hnn
    have h0 : hedef_fiyat StratejiMod.MAX r k = 0 := by
      simp [hedef_fiyat, hedef_fiyat_tl, h, max_fiyat_tl]
    have hnp : ¬ (0 < normalized_price r k mk) := fun hpos =>
      List.not_mem_nil _ (h ▸ mem_fiyatlar_listesi.2 ⟨⟨mk, rfl⟩, hpos⟩)
    have hz : normalized_price r k mk = 0 := le_antisymm (not_lt.1 hnp) hnn
    unfold fark
    rw [h0, hz]
    norm_num

/-- Witness for C8 at concrete input: for `r_zero` (no available price,
all prices nonnegative) the TR deviation amount is 0. -/
theorem c8_witness : fark StratejiMod.MAX r_zero k_one Market.TR = 0 :=
  (c8_max_strategy r_zero k_one).2.2
    (by norm_num [fiyatlar_listesi, markets, normalized_price, r_zero, k_one, List.filter])
    Market.TR
    (by norm_num [normalized_price, r_zero])

/-! ### Claim C3 (corrected) -/

/-- C3 counterexample: a TR row whose checkin "not-a-date" fails to parse
is not dropped by `merge_dataframes`: it survives in the merged output,
with a null (NaT) canonical checkin.  `pd.to_datetime(..., errors="coerce")`
only coerces the value to NaT; no `dropna` follows. -/
theorem c3_counterexample :
    parse0 bad_row.checkin = none ∧
    merge_dataframes parse0 [bad_row] [] [] [] = [bad_merged] :=
  ⟨rfl, rfl⟩

/-- C3 amended: rows whose checkin fails to parse are kept, not dropped:
the merged output has exactly one row per join key regardless of
parsability, and each row's canonical checkin is the parse result of its
raw checkin — `none` (NaT) when parsing fails. -/
theorem c3_rows_kept (parse : String → Option Nat) (tr us de uk : List MarketRow) :
    (merge_dataframes parse tr us de uk).length = (merged_keys tr us de uk).length ∧
    ∀ row ∈ merge_dataframes parse tr us de uk,
      ∃ key ∈ merged_keys tr us de uk, row.otel = key.1 ∧ row.checkin = parse key.2 := by
  constructor
  · simp [merge_dataframes]
  · intro row hrow
    obtain ⟨key, hkey, rfl⟩ := List.mem_map.1 hrow
    exact ⟨key, hkey, rfl, rfl⟩

/-- Witness for C3 at the concrete input: the merged row of `bad_row`
carries its hotel name and the (failed) parse of its checkin. -/
theorem c3_witness :
    ∃ key ∈ merged_keys [bad_row] [] [] [],
      bad_merged.otel = key.1 ∧ bad_merged.checkin = parse0 key.2 :=
  (c3_rows_kept parse0 [bad_row] [] [] []).2 bad_merged
    (List.mem_map.2 ⟨("Hotel A", "not-a-date"), by decide, rfl⟩)

/-! ### Claim C5 -/

/-- C5: the merge is a full outer join on (hotel, checkin): the merged key
set is exactly the union of the four input key sets, every key (even one
present in a single market) produces a merged row whose prices are the
per-market lookups, and a key absent from a market gets price 0 there
rather than a null. -/
theorem c5_outer_join (parse : String → Option Nat) (tr us de uk : List MarketRow) :
    (∀ key : String × String,
      key ∈ merged_keys tr us de uk ↔
        key ∈ keysOf tr ∨ key ∈ keysOf us ∨ key ∈ keysOf de ∨ key ∈ keysOf uk) ∧
    (∀ key ∈ merged_keys tr us de uk,
      ({ otel := key.1
         checkin := parse key.2
         fiyat_tl := lookup_fiyat tr key
         fiyat_usd := lookup_fiyat us key
         fiyat_eur := lookup_fiyat de key
         fiyat_gbp := lookup_fiyat uk key } : MergedRow) ∈
        merge_dataframes parse tr us de uk) ∧
    (∀ (rows : List MarketRow) (key : String × String),
      (∀ r ∈ rows, (r.otel, r.checkin) ≠ key) → lookup_fiyat rows key = 0) := by
  refine ⟨?_, ?_, ?_⟩
  · intro key
    simp [merged_keys, List.mem_dedup, List.mem_append, or_assoc]
  · intro key hkey
    exact List.mem_map.2 ⟨key, hkey, rfl⟩
  · intro rows key h
    unfold lookup_fiyat
    have hnone : rows.find? (fun r => decide ((r.otel, r.checkin) = key)) = none := by
      rw [List.find?_eq_none]
      intro r hr
      simpa using h r hr
    rw [hnone]

/-- Witness for C5 at concrete inputs: the key present only in the US
table still appears in the merged output, with the three missing prices 0;
and a lookup in an empty table yields 0. -/
theorem c5_witness :
    us_merged ∈ merge_dataframes parse0 [bad_row] [us_row] [] [] ∧
    lookup_fiyat [] us_key = 0 :=
  ⟨(c5_outer_join parse0 [bad_row] [us_row] [] []).2.1 us_key (by decide),
   (c5_outer_join parse0 [bad_row] [us_row] [] []).2.2 [] us_key (by simp)⟩

/-! ### Claim C6 -/

/-- C6: a market is flagged exactly when its deviation percentage
satisfies the mode's predicate — under MAX when it is < −10, under MIN
when it is > 10, under MEAN when its absolute value is > 10 — and a record
appears in the recommendation output iff at least one of its four markets
is flagged. -/
theorem c6_flagging (m : StratejiMod) (k : Kurlar) (rows : List Record)
    (r : Record) (mk : Market) :
    (mk ∈ oneriler m r k ↔ compare_op m (fark_yuzde m r k mk) = true) ∧
    (compare_op StratejiMod.MAX (fark_yuzde StratejiMod.MAX r k mk) = true ↔
      fark_yuzde StratejiMod.MAX r k mk < -STRATEGY_PERCENT_THRESHOLD) ∧
    (compare_op StratejiMod.MIN (fark_yuzde StratejiMod.MIN r k mk) = true ↔
      STRATEGY_PERCENT_THRESHOLD < fark_yuzde StratejiMod.MIN r k mk) ∧
    (compare_op StratejiMod.MEAN (fark_yuzde StratejiMod.MEAN r k mk) = true ↔
      STRATEGY_PERCENT_THRESHOLD < |fark_yuzde StratejiMod.MEAN r k mk|) ∧
    ((∃ l, (r, l) ∈ sorted_oneriler m k rows) ↔ r ∈ rows ∧ oneriler m r k ≠ []) := by
  refine ⟨?_, by simp [compare_op], by simp [compare_op], by simp [compare_op], ?_⟩
  · rw [oneriler, List.mem_filter]
    simp [mem_markets]
  · constructor
    · rintro ⟨l, hl⟩
      have hl' : (r, l) ∈ oneriler_listesi m k rows :=
        (List.perm_insertionSort (score_ge m k) (oneriler_listesi m k rows)).subset hl
      obtain ⟨hmem, hne⟩ := List.mem_filter.1 hl'
      obtain ⟨r', hr', heq⟩ := List.mem_map.1 hmem
      cases heq
      refine ⟨hr', fun hnil => ?_⟩
      rw [hnil] at hne
      simp at hne
    · rintro ⟨hr, hne⟩
      refine ⟨oneriler m r k,
        (List.perm_insertionSort (score_ge m k) (oneriler_listesi m k rows)).mem_iff.2 ?_⟩
      refine List.mem_filter.2 ⟨List.mem_map.2 ⟨r, hr, rfl⟩, ?_⟩
      simpa using hne

/-! ### Claim C7 -/

/-- C7: the recommendation list is the flagged records sorted in
descending order of total score: pairwise, every earlier element's score
is ≥ every later one's; the output is a permutation of the flagged list;
and the sort is stable — any two entries of equal score keep their
original relative order. -/
theorem c7_ranking (m : StratejiMod) (k : Kurlar) (rows : List Record) :
    List.Pairwise (score_ge m k) (sorted_oneriler m k rows) ∧
    (sorted_oneriler m k rows).Perm (oneriler_listesi m k rows) ∧
    (∀ a b : Record × List Market,
      get_total_diff_score m k a = get_total_diff_score m k b →
      List.Sublist [a, b] (oneriler_listesi m k rows) →
      List.Sublist [a, b] (sorted_oneriler m k rows)) := by
  refine ⟨?_, List.perm_insertionSort _ _, ?_⟩
  · haveI : IsTotal (Record × List Market) (score_ge m k) := ⟨fun p q => le_total _ _⟩
    haveI : IsTrans (Record × List Market) (score_ge m k) :=
      ⟨fun p q s h1 h2 => le_trans h2 h1⟩
    exact List.sorted_insertionSort (score_ge m k) (oneriler_listesi m k rows)
  · intro a b hscore hsub
    exact List.sublist_insertionSort (List.pairwise_pair.2 (le_of_eq hscore.symm)) hsub

/-- Witness for C7 at concrete inputs: `rec_a` and `rec_b` have equal
total score (9900) under MIN, so their pair keeps its insertion order in
the sorted output. -/
theorem c7_witness :
    List.Sublist [(rec_a, [Market.TR]), (rec_b, [Market.DE])]
      (sorted_oneriler StratejiMod.MIN k_one [rec_a, rec_b]) :=
  (c7_ranking StratejiMod.MIN k_one [rec_a, rec_b]).2.2
    (rec_a, [Market.TR]) (rec_b, [Market.DE])
    (by norm_num [get_total_diff_score, markets, compare_op, fark_yuzde,
      calculate_percent_diff, fark, hedef_fiyat, hedef_fiyat_tl, min_fiyat_tl,
      fiyatlar_listesi, normalized_price, rec_a, rec_b, k_one,
      STRATEGY_PERCENT_THRESHOLD, List.filter, List.foldl, min_def, abs])
    (by
      have hlist : oneriler_listesi StratejiMod.MIN k_one [rec_a, rec_b] =
          [(rec_a, [Market.TR]), (rec_b, [Market.DE])] := by
        norm_num [oneriler_listesi, oneriler, markets, compare_op, fark_yuzde,
          calculate_percent_diff, fark, hedef_fiyat, hedef_fiyat_tl, min_fiyat_tl,
          fiyatlar_listesi, normalized_price, rec_a, rec_b, k_one,
          STRATEGY_PERCENT_THRESHOLD, List.filter, List.foldl, min_def]
      rw [hlist])

/-! ### Claim C9 -/

/-- C9: the health classifier maps "CRASH_OR_TIMEOUT" to Failure
("Veri Çekilemedi"), "min_from_list" to Success ("Başarılı"), the
unrecognized "xyz" to Other ("Diğer"), and any note containing the
substring "min_from_main_block" to Success even when it is not in the
exact success list. -/
theorem c9_categorize :
    (categorize_note success_notes "CRASH_OR_TIMEOUT").1 = "Veri Çekilemedi" ∧
    (categorize_note success_notes "min_from_list").1 = "Başarılı" ∧
    (categorize_note success_notes "xyz").1 = "Diğer" ∧
    ∀ note : String, containsSub "min_from_main_block".toList note.toList = true →
      (categorize_note success_notes note).1 = "Başarılı" := by
  refine ⟨by decide, by decide, by decide, ?_⟩
  intro note h
  unfold categorize_note
  split
  next => rfl
  next =>
    split
    next herr =>
      exfalso
      have hcase : note = "CRASH_OR_NOT_FOUND" ∨ note = "CRASH_OR_TIMEOUT" ∨
          note = "main_block_id_timeout" ∨ note = "main_block_id_not_found" ∨
          note = "main_block_find_error" ∨ note = "not_found" ∨
          note = "Bilinmiyor" ∨ note = "N/A" := by
        simpa [error_notes] using herr
      rcases hcase with rfl | rfl | rfl | rfl | rfl | rfl | rfl | rfl <;>
        exact absurd h (by decide)
    next => rfl

/-- Witness for C9: a note that is not in the exact success list but
contains the substring is classified as Success. -/
theorem c9_witness :
    containsSub "min_from_main_block".toList "min_from_main_block_v2".toList = true ∧
    "min_from_main_block_v2" ∉ success_notes ∧
    (categorize_note success_notes "min_from_main_block_v2").1 = "Başarılı" :=
  ⟨by decide, by decide, c9_categorize.2.2.2 "min_from_main_block_v2" (by decide)⟩

/-! ### Claim C10 -/

lemma notesInv_init : NotesInv success_notes := by
  refine ⟨fun n hn => hn, fun n hn => ?_⟩
  unfold categorize_note
  rw [if_pos hn]

lemma categorize_fst_of_inv {s : List String} (h : NotesInv s) (note : String) :
    (categorize_note s note).1 = (categorize_note success_notes note).1 := by
  by_cases hmem : note ∈ s
  · have h1 : (categorize_note s note).1 = "Başarılı" := by
      unfold categorize_note
      rw [if_pos hmem]
    rw [h1, h.2 note hmem]
  · have hnot : note ∉ success_notes := fun hx => hmem (h.1 note hx)
    unfold categorize_note
    rw [if_neg hmem, if_neg hnot]
    by_cases herr : note ∈ error_notes
    · rw [if_pos herr, if_pos herr]
    · rw [if_neg herr, if_neg herr]
      by_cases hsub : containsSub "min_from_main_block".toList note.toList = true
      · rw [if_pos hsub, if_pos hsub]
      · rw [if_neg hsub, if_neg hsub]

lemma notesInv_step {s : List String} (h : NotesInv s) (note : String) :
    NotesInv (categorize_note s note).2 := by
  unfold categorize_note
  split
  next => exact h
  next =>
    split
    next => exact h
    next herr =>
      split
      next hsub =>
        refine ⟨fun n hn => List.mem_append_left _ (h.1 n hn), fun n hn => ?_⟩
        rcases List.mem_append.1 hn with hn | hn
        · exact h.2 n hn
        · have hn' : n = note := by simpa using hn
          subst hn'
          unfold categorize_note
          split
          next => rfl
          next => rfl
      next => exact h

lemma notesInv_run (notes : List String) : ∀ {s : List String}, NotesInv s →
    NotesInv (runNotes s notes) := by
  induction notes with
  | nil => exact fun h => h
  | cons n rest ih => exact fun h => ih (notesInv_step h n)

/-- C10: health classification is total and deterministic: every note maps
to exactly one of the three categories, and classifying a note after any
sequence of prior classifications (which may have appended to the success
list) yields the same category as classifying it against the original
list — the self-mutation never changes an answer. -/
theorem c10_total_deterministic (notes : List String) (note : String) :
    (categorize_note (runNotes success_notes notes) note).1 =
      (categorize_note success_notes note).1 ∧
    ((categorize_note (runNotes success_notes notes) note).1 = "Başarılı" ∨
     (categorize_note (runNotes success_notes notes) note).1 = "Veri Çekilemedi" ∨
     (categorize_note (runNotes success_notes notes) note).1 = "Diğer") := by
  refine ⟨categorize_fst_of_inv (notesInv_run notes notesInv_init) note, ?_⟩
  unfold categorize_note
  split
  · exact Or.inl rfl
  · split
    · exact Or.inr (Or.inl rfl)
    · split
      · exact Or.inl rfl
      · exact Or.inr (Or.inr rfl)

end Dashboard
